import Mathlib

/-!
Shallow embedding of the Winter framework AJAX request module
(src/modules/system/assets/js/framework-next/ajax/Request.js).

The `Request` class orchestrates one AJAX request: construction-time
validation (`checkRequest`), an `ajaxSetup` hook, client-side form
validation, an optional confirmation gate (`doConfirm`), the network
call (`doAjax`), the partial DOM update phase (`processUpdate` /
`doUpdate`), and outcome dispatch (`processResponse` / `processError`).

JavaScript values that the code inspects are modelled by `JVal`;
`undefined` is modelled by `Option`. Effects observable outside the
request instance (DOM writes, navigation, alerts, hook invocations,
the network call) are collected in an explicit trace of `Effect`s.
-/

namespace WinterRequest

/-- JavaScript values appearing in AJAX response payloads and callback
returns: strings, booleans, numbers, arrays of strings (flash message or
trace lists) and field maps (validation error maps). -/
inductive JVal where
  | str : String → JVal
  | bool : Bool → JVal
  | num : Int → JVal
  | strList : List String → JVal
  | fieldMap : List (String × List String) → JVal
deriving DecidableEq

/-- JavaScript truthiness of a possibly-undefined value: `undefined` is
falsy, `""` is falsy, `false` is falsy, `0` is falsy; arrays and objects
are always truthy. -/
def jvTruthy : Option JVal → Bool
  | none => false
  | some (JVal.str s) => s ≠ ""
  | some (JVal.bool b) => b
  | some (JVal.num n) => n ≠ 0
  | some (JVal.strList _) => true
  | some (JVal.fieldMap _) => true

/-- JavaScript string coercion of a value (used when a non-string payload
value is passed where a string is consumed). -/
def jsToString : JVal → String
  | JVal.str s => s
  | JVal.bool b => cond b "true" "false"
  | JVal.num n => toString n
  | JVal.strList xs => String.intercalate "," xs
  | JVal.fieldMap _ => "[object Object]"

/-- First-match association lookup, modelling JavaScript property access
on an object represented as an ordered key/value list. -/
def assocLookup {β : Type} : List (String × β) → String → Option β
  | [], _ => none
  | kv :: rest, k => if kv.1 = k then some kv.2 else assocLookup rest k

/-- `Object.assign({}, base, overrides)`: keys of `base` keep their
position but take the overriding value when present; keys only in
`overrides` are appended. -/
def objAssign (base overrides : List (String × JVal)) : List (String × JVal) :=
  base.map (fun kv =>
    match assocLookup overrides kv.1 with
    | some v => (kv.1, v)
    | none => kv)
  ++ overrides.filter (fun kv => (assocLookup base kv.1).isNone)

/-- The value `doAjax` resolves with: either a JSON object (an ordered
key/value list) or, for non-JSON success bodies, the bare response text. -/
inductive AjaxResponse where
  | obj : List (String × JVal) → AjaxResponse
  | text : String → AjaxResponse
deriving DecidableEq

/-- `Object.entries` on a JavaScript string: one entry per character,
keyed by the decimal character index. -/
def stringEntries (s : String) : List (String × JVal) :=
  s.toList.enum.map (fun ic => (toString ic.1, JVal.str (String.singleton ic.2)))

/-- `Object.entries(response)`: the fields of an object, or the
per-character entries of a bare string. -/
def entriesOf : AjaxResponse → List (String × JVal)
  | AjaxResponse.obj fields => fields
  | AjaxResponse.text s => stringEntries s

/-- Property access `response[k]` on the resolved response value. -/
def getField (r : AjaxResponse) (k : String) : Option JVal :=
  assocLookup (entriesOf r) k

/-- A JavaScript `Error` as produced by `renderError`. -/
structure JsError where
  message : String
  exception : Option JVal
  file : Option JVal
  line : Option JVal
  trace : JVal
deriving DecidableEq

/-- `x || null` as used by `renderError` on its optional fields. -/
def orNull (v : Option JVal) : Option JVal :=
  if jvTruthy v then v else none

/-- `trace || []` as used by `renderError`. -/
def orEmptyList (v : Option JVal) : JVal :=
  if jvTruthy v then v.getD (JVal.strList []) else JVal.strList []

/-- `renderError(message, exception, file, line, trace)`. -/
def renderError (message : String) (exception file line trace : Option JVal) : JsError :=
  ⟨message, orNull exception, orNull file, orNull line, orEmptyList trace⟩

/-- `renderError(message)` with all optional arguments absent. -/
def renderErrorMsg (message : String) : JsError :=
  renderError message none none none none

/-- `new Error(v).message`: `undefined` yields the empty message,
anything else is string-coerced. -/
def errMessageOf : Option JVal → String
  | none => ""
  | some v => jsToString v

/-- The raw transport response observed by `doAjax` after `fetch`
resolves: HTTP status, whether the `Content-Type` header contains
`/json`, the JSON parse result (`none` models a parse failure) and the
text body (`none` models a failure of `response.text()`). -/
structure RawResponse where
  status : Nat
  contentTypeJson : Bool
  jsonBody : Option (List (String × JVal))
  textBody : Option String
deriving DecidableEq

/-- The outcome of the `fetch` call itself: a response, or a
network-level failure. -/
inductive FetchResult where
  | ok : RawResponse → FetchResult
  | networkFailure : String → FetchResult
deriving DecidableEq

/-- Settlement of the `doAjax` promise. -/
inductive TransportOutcome where
  | fulfilled : AjaxResponse → TransportOutcome
  | rejected : JsError → TransportOutcome
deriving DecidableEq

/-- `Response.ok`: status in the inclusive range 200–299. -/
def responseOk (status : Nat) : Bool :=
  200 ≤ status && status ≤ 299

/-- Classification of a raw transport response by `doAjax`
(Request.js lines 140–190): non-OK non-406 statuses reject with an
error built from the body; OK or 406 statuses resolve, JSON bodies being
merged with `X_WINTER_SUCCESS` (false exactly when the status is 406) and
`X_WINTER_RESPONSE_CODE`, and non-JSON bodies resolving as bare text. -/
def classifyResponse (r : RawResponse) : TransportOutcome :=
  if responseOk r.status = false ∧ r.status ≠ 406 then
    if r.contentTypeJson then
      match r.jsonBody with
      | some d =>
          TransportOutcome.rejected (renderError
            (errMessageOf (assocLookup d "message"))
            (assocLookup d "exception") (assocLookup d "file")
            (assocLookup d "line") (assocLookup d "trace"))
      | none => TransportOutcome.rejected (renderErrorMsg "Unable to parse JSON response")
    else
      match r.textBody with
      | some t => TransportOutcome.rejected (renderErrorMsg t)
      | none => TransportOutcome.rejected (renderErrorMsg "Unable to process response")
  else
    if r.contentTypeJson then
      match r.jsonBody with
      | some d =>
          TransportOutcome.fulfilled (AjaxResponse.obj (objAssign d
            [("X_WINTER_SUCCESS", JVal.bool (decide (r.status ≠ 406))),
             ("X_WINTER_RESPONSE_CODE", JVal.num (Int.ofNat r.status))]))
      | none => TransportOutcome.rejected (renderErrorMsg "Unable to parse JSON response")
    else
      match r.textBody with
      | some t => TransportOutcome.fulfilled (AjaxResponse.text t)
      | none => TransportOutcome.rejected (renderErrorMsg "Unable to process response")

/-- Settlement of `doAjax` for a given `fetch` outcome. -/
def classifyFetch : FetchResult → TransportOutcome
  | FetchResult.ok r => classifyResponse r
  | FetchResult.networkFailure msg =>
      TransportOutcome.rejected (renderErrorMsg
        ("Unable to retrieve a response from the server: " ++ msg))

/-- Settlement of the aggregated `ajaxConfirmMessage` promise event. -/
inductive PromiseOutcome where
  | fulfilled : Bool → PromiseOutcome
  | rejected : PromiseOutcome
deriving DecidableEq

/-- The ambient environment a request observes: the current page URL,
the results of the global hook broadcasts (`winter.globalEvent` /
`winter.globalPromiseEvent`), the number of `ajaxConfirmMessage`
listeners, the browser `confirm()` answer, and the form state consulted
by client-side validation. -/
structure Env where
  currentHref : String
  ajaxSetup : Bool
  ajaxBeforeUpdateFulfilled : Bool
  ajaxRedirect : Bool
  ajaxErrorMessage : Bool
  ajaxFlashMessages : Bool
  ajaxValidationErrors : Bool
  ajaxConfirmListeners : Nat
  ajaxConfirmOutcome : PromiseOutcome
  browserConfirm : Bool
  formValid : Bool
  elementClosestForm : Bool

/-- The `element` constructor argument: `undefined`, `null`, a real
`Element` instance, or some other non-`Element` value. -/
inductive ElementArg where
  | undefined
  | null
  | element : Nat → ElementArg
  | nonElement
deriving DecidableEq

/-- `x instanceof Element`. -/
def instanceOfElement : ElementArg → Bool
  | ElementArg.element _ => true
  | _ => false

/-- The options bag recognised by the request, including the optional
per-request callback overrides. Callbacks return a `JVal`; the code only
ever tests their result against literal `false`. An omitted
`options.update` is `undefined` (`none`): the source never defaults it,
and `doUpdate` reads `this.options.update[partial]` unguarded. -/
structure Options where
  url : Option String := none
  update : Option (List (String × String)) := none
  confirm : Option String := none
  redirect : Option String := none
  flash : Bool := false
  files : Bool := false
  data : Option (List (String × String)) := none
  browserValidate : Bool := false
  formOverride : Bool := false
  beforeUpdate : Option (AjaxResponse → JVal) := none
  handleConfirmMessage : Option (String → JVal) := none
  handleRedirectResponse : Option (String → JVal) := none
  handleErrorMessage : Option (String → JVal) := none
  handleFlashMessages : Option (JVal → JVal) := none
  handleValidationErrors : Option (JVal → JVal) := none

/-- The three DOM merge modes of `doUpdate`. -/
inductive UpdateMode where
  | replace
  | append
  | prepend
deriving DecidableEq

/-- The request body. The source's `get data` always builds a
`FormData` (multipart) body; `urlEncoded` exists only to express the
specified alternative of plain encoded key/value pairs. -/
inductive RequestBody where
  | formData : List (String × String) → RequestBody
  | urlEncoded : List (String × String) → RequestBody
deriving DecidableEq

/-- Whether a request body is multipart form data. -/
def isMultipart : RequestBody → Bool
  | RequestBody.formData _ => true
  | RequestBody.urlEncoded _ => false

/-- Externally observable actions of one request, in execution order. -/
inductive Effect where
  | setupHookCall
  | reportValidityCall
  | confirmCallbackCall : String → Effect
  | browserConfirmCall : String → Effect
  | confirmHookCall : String → Effect
  | networkCall : String → RequestBody → Effect
  | hookBeforeUpdateCall
  | domWrite : String → UpdateMode → String → Effect
  | enterProcessError
  | enterProcessResponse
  | validationErrorsDispatch : JVal → Effect
  | validationHookCall : JVal → Effect
  | errorMessageDispatch : String → Effect
  | errorMessageHookCall : String → Effect
  | alertCall : String → Effect
  | flashDispatch : JVal → Effect
  | flashHookCall : JVal → Effect
  | assetsDispatch : JVal → Effect
  | popstateListenerAdd
  | navigate : String → Effect
deriving DecidableEq

/-- A DOM element: the set of selectors it matches, and its `innerHTML`. -/
structure DomElement where
  selectors : List String
  innerHTML : String
deriving DecidableEq

/-- The page DOM, as the list of its elements in document order. -/
abbrev Dom := List DomElement

/-- Whether `document.querySelectorAll(sel)` includes this element. -/
def elementMatches (e : DomElement) (sel : String) : Bool :=
  e.selectors.contains sel

/-- `get url`: `options.url || window.location.href`. -/
def urlGetter (env : Env) (opts : Options) : String :=
  match opts.url with
  | some u => if u = "" then env.currentHref else u
  | none => env.currentHref

/-- `get redirect`: the `redirect` option when it is a non-empty string,
else `null`. -/
def redirectGetter (opts : Options) : Option String :=
  match opts.redirect with
  | some s => if s.length ≠ 0 then some s else none
  | none => none

/-- `get confirm` combined with the `if (this.confirm)` truthiness test:
the confirmation prompt when `options.confirm` is a non-empty string. -/
def confirmGetter (opts : Options) : Option String :=
  match opts.confirm with
  | some s => if s = "" then none else some s
  | none => none

/-- `get files`: `options.files === true`. The source's inner
`typeof FormData === undefined` guard compares the string returned by
`typeof` against the value `undefined` and so never fires. -/
def filesGetter (opts : Options) : Bool :=
  opts.files

/-- `get data`: a `FormData` built from the entries of `options.data`
(an empty object when `options.data` is not an object). The body is
multipart form data regardless of the `files` option. -/
def requestData (opts : Options) : RequestBody :=
  RequestBody.formData (opts.data.getD [])

/-- `get form` reduced to presence: an explicit `options.form`, else the
closest enclosing form of the element when there is one. -/
def hasFormB (env : Env) (opts : Options) (element : ElementArg) : Bool :=
  opts.formOverride || (instanceOfElement element && env.elementClosestForm)

/-- `doClientValidation`: when `browserValidate` is enabled and a form is
present and invalid, report validity and abort. -/
def doClientValidation (env : Env) (opts : Options) (element : ElementArg) :
    Bool × List Effect :=
  if opts.browserValidate = true && hasFormB env opts element then
    if env.formValid = false then (false, [Effect.reportValidityCall])
    else (true, [])
  else (true, [])

/-- The handler-name check `handler.match(/^(?:\w+\:{2})?on*\/)`, part
two: scanning for `::` followed by `o` with only word characters before
the colons, at least one word character having been consumed already. -/
def matchHandlerAux : List Char → Bool
  | ':' :: ':' :: 'o' :: _ => true
  | c :: rest => (c.isAlphanum || c = '_') && matchHandlerAux rest
  | [] => false

/-- The handler-name regex `/^(?:\w+\:{2})?on*\/` of `checkRequest`:
an optional `word::` namespace, then the character `o`, then zero or
more `n` — so any (optionally namespaced) name starting with `o`
matches, because `n*` may match the empty string. -/
def handlerMatch (s : String) : Bool :=
  match s.toList with
  | 'o' :: _ => true
  | c :: rest => (c.isAlphanum || c = '_') && matchHandlerAux rest
  | [] => false

/-- `checkRequest`: structural validation of the element and handler
arguments, thrown synchronously from the constructor. -/
def checkRequest (element : ElementArg) (handler : Option String) :
    Except String Unit :=
  if element ≠ ElementArg.undefined ∧ instanceOfElement element = false then
    Except.error "The element provided must be an Element instance"
  else
    match handler with
    | none => Except.error "The AJAX handler name is not specified."
    | some h =>
        if handlerMatch h = false then
          Except.error "Invalid AJAX handler name. The correct handler name format is: \"onEvent\"."
        else Except.ok ()

/-- `s.substr(0, n)`: the first `n` characters of a string, computed on
the character list. -/
def strTake (s : String) (n : Nat) : String :=
  (s.toList.take n).asString

/-- `s.substr(n)`: the string with its first `n` characters removed,
computed on the character list. -/
def strDrop (s : String) (n : Nat) : String :=
  (s.toList.drop n).asString

/-- Selector resolution of `doUpdate`: the mapped selector when the
`update` option has a truthy entry for the partial, else the partial
name itself; a leading `@` selects append mode and a leading `^`
prepend mode, both being stripped from the selector. -/
def resolveSelector (update : List (String × String)) (p : String) :
    String × UpdateMode :=
  let sel :=
    match assocLookup update p with
    | some s => if s = "" then p else s
    | none => p
  if strTake sel 1 = "@" then (strDrop sel 1, UpdateMode.append)
  else if strTake sel 1 = "^" then (strDrop sel 1, UpdateMode.prepend)
  else (sel, UpdateMode.replace)

/-- One element's `innerHTML` after applying sanitized content in the
given merge mode. -/
def applyToElement (san : String → String) (mode : UpdateMode)
    (content : String) (e : DomElement) : DomElement :=
  match mode with
  | UpdateMode.replace => ⟨e.selectors, san content⟩
  | UpdateMode.append => ⟨e.selectors, e.innerHTML ++ san content⟩
  | UpdateMode.prepend => ⟨e.selectors, san content ++ e.innerHTML⟩

/-- One iteration of the `doUpdate` loop: resolve the selector and mode,
select the matching elements, and when at least one matches, write the
sanitized content into each; a selector matching no element leaves the
DOM untouched. -/
def updateStep (san : String → String) (update : List (String × String))
    (dom : Dom) (pv : String × JVal) : Dom × List Effect :=
  let sm := resolveSelector update pv.1
  let content := jsToString pv.2
  if (dom.filter (fun e => elementMatches e sm.1)).length > 0 then
    (dom.map (fun e =>
        if elementMatches e sm.1 then applyToElement san sm.2 content e else e),
     [Effect.domWrite sm.1 sm.2 content])
  else (dom, [])

/-- The `doUpdate` loop over the partials, in order. The source's
promise resolves from inside the loop, so it settles exactly when the
partial list is non-empty; `processUpdate` only invokes it on non-empty
partial lists. -/
def doUpdateGo (san : String → String) (update : List (String × String)) :
    List (String × JVal) → Dom → Dom × List Effect
  | [], dom => (dom, [])
  | pv :: rest, dom =>
      let r := updateStep san update dom pv
      let r2 := doUpdateGo san update rest r.1
      (r2.1, r.2 ++ r2.2)

/-- `doUpdate(partials)`: each loop iteration first reads
`this.options.update[partial]`; when `options.update` is undefined
(Request.js line 260 has no guard, unlike the `options.update || []` of
the headers getter) this read throws a TypeError in the first iteration,
before any DOM write, and the throw inside the executor rejects the
promise — modelled as `none`. With a defined mapping the loop applies
every partial. The source's `resolve()` fires from inside the loop, so
the promise settles exactly on non-empty partial lists; `processUpdate`
invokes `doUpdate` only on non-empty lists. -/
def doUpdate (san : String → String) (update : Option (List (String × String)))
    (partials : List (String × JVal)) (dom : Dom) : Option (Dom × List Effect) :=
  match update with
  | none => none
  | some u => some (doUpdateGo san u partials dom)

/-- Partial extraction of `processUpdate`: every entry of the response
whose key does not begin with the eight characters `X_WINTER`
(`key.substr(0, 8) !== 'X_WINTER'`). -/
def responsePartials (r : AjaxResponse) : List (String × JVal) :=
  (entriesOf r).filter (fun kv => decide (strTake kv.1 8 ≠ "X_WINTER"))

/-- Settlement of the `processUpdate` promise. -/
inductive UpdateStatus where
  | resolved
  | rejected
deriving DecidableEq

/-- `processUpdate(response)`: a literal `false` from the `beforeUpdate`
callback rejects before anything else; an empty partial set resolves
immediately without broadcasting the update hook; otherwise the
aggregated `ajaxBeforeUpdate` event is broadcast and, when it fulfills,
`doUpdate` runs: if it resolves the promise resolves (at the next
animation frame), and if it rejects — the TypeError of an undefined
`options.update` — `processUpdate` rejects; a rejection of the hook also
rejects the update before any DOM write. -/
def processUpdate (env : Env) (san : String → String) (opts : Options)
    (r : AjaxResponse) (dom : Dom) : UpdateStatus × Dom × List Effect :=
  let vetoed :=
    match opts.beforeUpdate with
    | some f => decide (f r = JVal.bool false)
    | none => false
  if vetoed then (UpdateStatus.rejected, dom, [])
  else
    let partials := responsePartials r
    if partials.isEmpty then (UpdateStatus.resolved, dom, [])
    else if env.ajaxBeforeUpdateFulfilled then
      match doUpdate san opts.update partials dom with
      | none => (UpdateStatus.rejected, dom, [Effect.hookBeforeUpdateCall])
      | some res =>
          (UpdateStatus.resolved, res.1, Effect.hookBeforeUpdateCall :: res.2)
    else (UpdateStatus.rejected, dom, [Effect.hookBeforeUpdateCall])

/-- `processRedirect(url)`: the per-request `handleRedirectResponse`
callback may cancel with a literal `false`; then the cancellable
`ajaxRedirect` hook may cancel with `false`; otherwise a one-shot
`popstate` listener is registered and the browser navigates. -/
def processRedirect (env : Env) (opts : Options) (url : String) : List Effect :=
  let tail :=
    if env.ajaxRedirect = false then []
    else [Effect.popstateListenerAdd, Effect.navigate url]
  match opts.handleRedirectResponse with
  | some f => if f url = JVal.bool false then [] else tail
  | none => tail

/-- `processErrorMessage(message)`: the per-request `handleErrorMessage`
callback may cancel; then the cancellable `ajaxErrorMessage` hook may
cancel; the default behaviour is a blocking `alert`. -/
def processErrorMessage (env : Env) (opts : Options) (message : String) :
    List Effect :=
  let tail :=
    Effect.errorMessageHookCall message ::
      (if env.ajaxErrorMessage = false then [] else [Effect.alertCall message])
  Effect.errorMessageDispatch message ::
    match opts.handleErrorMessage with
    | some f => if f message = JVal.bool false then [] else tail
    | none => tail

/-- `processFlashMessages(messages)`: per-request callback, then the
cancellable `ajaxFlashMessages` hook; no default behaviour. -/
def processFlashMessages (_env : Env) (opts : Options) (messages : JVal) :
    List Effect :=
  let tail := [Effect.flashHookCall messages]
  Effect.flashDispatch messages ::
    match opts.handleFlashMessages with
    | some f => if f messages = JVal.bool false then [] else tail
    | none => tail

/-- `processValidationErrors(fields)`: per-request callback, then the
cancellable `ajaxValidationErrors` hook; no default behaviour. -/
def processValidationErrors (_env : Env) (opts : Options) (fields : JVal) :
    List Effect :=
  let tail := [Effect.validationHookCall fields]
  Effect.validationErrorsDispatch fields ::
    match opts.handleValidationErrors with
    | some f => if f fields = JVal.bool false then [] else tail
    | none => tail

/-- The redirect target of `processResponse`:
`response.X_WINTER_REDIRECT || this.redirect`. -/
def redirectTarget (r : AjaxResponse) (opts : Options) : Option String :=
  if jvTruthy (getField r "X_WINTER_REDIRECT") then
    some (jsToString ((getField r "X_WINTER_REDIRECT").getD (JVal.str "")))
  else redirectGetter opts

/-- `processResponse(response)`: a redirect target is processed
exclusively and first; otherwise flash messages are dispatched when the
`flash` option is set and the payload carries them, and assets are
dispatched when the payload carries them. The source calls
`this.processAssets`, a method the class does not define; the call is
modelled as the asset dispatch effect. -/
def processResponse (env : Env) (opts : Options) (r : AjaxResponse) :
    List Effect :=
  match redirectTarget r opts with
  | some url => processRedirect env opts url
  | none =>
      (if opts.flash && jvTruthy (getField r "X_WINTER_FLASH_MESSAGES") then
         processFlashMessages env opts
           ((getField r "X_WINTER_FLASH_MESSAGES").getD (JVal.str ""))
       else [])
      ++ (if jvTruthy (getField r "X_WINTER_ASSETS") then
            [Effect.assetsDispatch ((getField r "X_WINTER_ASSETS").getD (JVal.str ""))]
          else [])

/-- The argument of `processError`: an `Error` instance (from a rejected
`doAjax`), or the soft-failure response object re-routed as an error. -/
inductive ErrorArg where
  | err : JsError → ErrorArg
  | resp : AjaxResponse → ErrorArg

/-- `processError(error)`: `Error` instances route their message to
`processErrorMessage`; response objects dispatch validation errors when
`X_WINTER_ERROR_FIELDS` is truthy and an error message when
`X_WINTER_ERROR_MESSAGE` is truthy (both may fire). -/
def processError (env : Env) (opts : Options) : ErrorArg → List Effect
  | ErrorArg.err e => processErrorMessage env opts e.message
  | ErrorArg.resp r =>
      (if jvTruthy (getField r "X_WINTER_ERROR_FIELDS") then
         processValidationErrors env opts
           ((getField r "X_WINTER_ERROR_FIELDS").getD (JVal.str ""))
       else [])
      ++ (if jvTruthy (getField r "X_WINTER_ERROR_MESSAGE") then
            processErrorMessage env opts
              (jsToString ((getField r "X_WINTER_ERROR_MESSAGE").getD (JVal.str "")))
          else [])

/-- `doConfirm()`: a supplied `handleConfirmMessage` callback fully owns
the decision (a literal `false` denies, anything else approves) and no
other confirmation primitive runs; else, with no `ajaxConfirmMessage`
listener registered, the blocking browser `confirm()` decides; else the
aggregated `ajaxConfirmMessage` event decides, a rejection being
swallowed as a denial. -/
def doConfirm (env : Env) (opts : Options) (prompt : String) :
    Bool × List Effect :=
  match opts.handleConfirmMessage with
  | some f =>
      if f prompt = JVal.bool false then (false, [Effect.confirmCallbackCall prompt])
      else (true, [Effect.confirmCallbackCall prompt])
  | none =>
      if env.ajaxConfirmListeners = 0 then
        (env.browserConfirm, [Effect.browserConfirmCall prompt])
      else
        match env.ajaxConfirmOutcome with
        | PromiseOutcome.fulfilled b => (b, [Effect.confirmHookCall prompt])
        | PromiseOutcome.rejected => (false, [Effect.confirmHookCall prompt])

/-- The dispatch step of the constructor once `processUpdate` resolves:
a strict-equality `false` value of `X_WINTER_SUCCESS` routes the
response to `processError`, anything else to `processResponse`. -/
def dispatchPhase (env : Env) (opts : Options) (r : AjaxResponse) :
    List Effect :=
  if getField r "X_WINTER_SUCCESS" = some (JVal.bool false) then
    Effect.enterProcessError :: processError env opts (ErrorArg.resp r)
  else
    Effect.enterProcessResponse :: processResponse env opts r

/-- The network phase and everything after it: `doAjax` is issued; a
rejection goes straight to `processError`; a fulfilled response first
runs `processUpdate` and, only when the update promise resolves, the
dispatch phase — a rejected update promise has no rejection handler in
the constructor, so dispatch is skipped entirely. -/
def networkAndAfter (env : Env) (san : String → String) (opts : Options)
    (fetch : FetchResult) (dom : Dom) : Dom × List Effect :=
  let net := Effect.networkCall (urlGetter env opts) (requestData opts)
  match classifyFetch fetch with
  | TransportOutcome.rejected e =>
      (dom, net :: Effect.enterProcessError :: processError env opts (ErrorArg.err e))
  | TransportOutcome.fulfilled r =>
      match processUpdate env san opts r dom with
      | (UpdateStatus.rejected, dom2, fx) => (dom2, net :: fx)
      | (UpdateStatus.resolved, dom2, fx) =>
          (dom2, net :: (fx ++ dispatchPhase env opts r))

/-- The result of one request lifecycle: a synchronous construction
error when `checkRequest` throws, the trace of observable effects, and
the final DOM. -/
structure LifecycleResult where
  constructionError : Option String
  effects : List Effect
  dom : Dom
deriving DecidableEq

/-- The `Request` constructor, end to end: `checkRequest`, the
cancellable `ajaxSetup` hook, client-side validation, the optional
confirmation gate, then the network phase with update and dispatch. -/
def runRequest (env : Env) (san : String → String) (element : ElementArg)
    (handler : Option String) (opts : Options) (fetch : FetchResult)
    (dom : Dom) : LifecycleResult :=
  match checkRequest element handler with
  | Except.error msg => ⟨some msg, [], dom⟩
  | Except.ok _ =>
      if env.ajaxSetup = false then ⟨none, [Effect.setupHookCall], dom⟩
      else if (doClientValidation env opts element).1 = false then
        ⟨none, Effect.setupHookCall :: (doClientValidation env opts element).2, dom⟩
      else
        match confirmGetter opts with
        | some prompt =>
            let c := doConfirm env opts prompt
            if c.1 then
              let after := networkAndAfter env san opts fetch dom
              ⟨none, Effect.setupHookCall :: (c.2 ++ after.2), after.1⟩
            else ⟨none, Effect.setupHookCall :: c.2, dom⟩
        | none =>
            let after := networkAndAfter env san opts fetch dom
            ⟨none, Effect.setupHookCall :: after.2, after.1⟩

/-- The header value `X-WINTER-REQUEST-PARTIALS` built by
`extractPartials`: the update-map keys joined with ampersands. -/
def extractPartials (update : List (String × String)) : String :=
  String.intercalate "&" (update.map Prod.fst)

/-- Follows the spec's words, for comparison with `handlerMatch`: a
handler name of the shape `[namespace::]on<Name>` — an optional
namespace of word characters followed by two colons, then the literal
`on`, then a non-empty name. -/
def specLocalOk : List Char → Bool
  | 'o' :: 'n' :: _ :: _ => true
  | _ => false

/-- Follows the spec's words: scanning for the `::` separator with only
word characters before it, then requiring `on<Name>` after it. -/
def specNsAux : List Char → Bool
  | ':' :: ':' :: rest => specLocalOk rest
  | c :: rest => (c.isAlphanum || c = '_') && specNsAux rest
  | [] => false

/-- Follows the spec's words: the full `[namespace::]on<Name>` pattern. -/
def specHandlerFormat (s : String) : Bool :=
  match s.toList with
  | [] => false
  | c :: rest => specLocalOk (c :: rest) || ((c.isAlphanum || c = '_') && specNsAux rest)

/-- Effects of the two confirmation primitives that `doConfirm` may fall
back to: the blocking browser `confirm()` and the aggregated
`ajaxConfirmMessage` hook. -/
def isConfirmPrimitiveEffect : Effect → Bool
  | Effect.browserConfirmCall _ => true
  | Effect.confirmHookCall _ => true
  | _ => false

/-- The marker effect of entering the plain success dispatch
(`processResponse`). -/
def isSuccessDispatchEffect : Effect → Bool
  | Effect.enterProcessResponse => true
  | _ => false

/-- Flash-message handling effects. -/
def isFlashEffect : Effect → Bool
  | Effect.flashDispatch _ => true
  | Effect.flashHookCall _ => true
  | _ => false

/-- Asset handling effects. -/
def isAssetEffect : Effect → Bool
  | Effect.assetsDispatch _ => true
  | _ => false

/-- The navigation targets occurring in an effect trace, in order. -/
def navTargets : List Effect → List String
  | [] => []
  | Effect.navigate u :: rest => u :: navTargets rest
  | _ :: rest => navTargets rest

/-- Whether `processRedirect` is vetoed for a URL: the per-request
`handleRedirectResponse` callback returns literal `false`, or the
`ajaxRedirect` hook broadcast returns `false`. -/
def redirectVetoed (env : Env) (opts : Options) (url : String) : Bool :=
  (match opts.handleRedirectResponse with
   | some f => decide (f url = JVal.bool false)
   | none => false) || decide (env.ajaxRedirect = false)

/-- The options of the C6 counterexample: `files` disabled, with a data
payload. -/
def c6opts : Options :=
  { files := false, data := some [("a", "1")] }

/-- A fixed benign environment for concrete witnesses: every hook passes,
no confirm listener, the browser confirms, the form is valid. -/
def envW : Env :=
  ⟨"http://page/", true, true, true, true, true, true, 0,
   PromiseOutcome.fulfilled true, true, true, false⟩

/-- The raw 406 soft-failure response of C1: JSON content type, a partial
`foo` and a validation-error field map. -/
def softFailureRaw (content : String) (fs : List (String × List String)) :
    RawResponse :=
  ⟨406, true,
   some [("foo", JVal.str content), ("X_WINTER_ERROR_FIELDS", JVal.fieldMap fs)],
   some ""⟩

/-- The response value `doAjax` resolves with for `softFailureRaw`: the
payload merged with `X_WINTER_SUCCESS = false` and the response code. -/
def softFailureResponse (content : String) (fs : List (String × List String)) :
    AjaxResponse :=
  AjaxResponse.obj
    [("foo", JVal.str content), ("X_WINTER_ERROR_FIELDS", JVal.fieldMap fs),
     ("X_WINTER_SUCCESS", JVal.bool false), ("X_WINTER_RESPONSE_CODE", JVal.num 406)]

/-- A quiet predicate produces no hit on one `doUpdate` iteration. -/
theorem updateStep_any_false (p : Effect → Bool)
    (hdom : ∀ s m c, p (Effect.domWrite s m c) = false)
    (san : String → String) (u : List (String × String)) (dom : Dom)
    (pv : String × JVal) : ((updateStep san u dom pv).2).any p = false := by
  unfold updateStep
  dsimp only
  split
  · simp [hdom]
  · simp

/-- A predicate false on all DOM writes finds no hit in the `doUpdate`
loop's effects. -/
theorem doUpdateGo_any_false (p : Effect → Bool)
    (hdom : ∀ s m c, p (Effect.domWrite s m c) = false)
    (san : String → String) (u : List (String × String))
    (ps : List (String × JVal)) (dom : Dom) :
    ((doUpdateGo san u ps dom).2).any p = false := by
  induction ps generalizing dom with
  | nil => simp [doUpdateGo]
  | cons pv rest ih =>
      simp only [doUpdateGo, List.any_append]
      rw [updateStep_any_false p hdom, ih]
      rfl

/-- A predicate false on error-message effects finds no hit in
`processErrorMessage`. -/
theorem processErrorMessage_any_false (p : Effect → Bool)
    (h1 : ∀ s, p (Effect.errorMessageDispatch s) = false)
    (h2 : ∀ s, p (Effect.errorMessageHookCall s) = false)
    (h3 : ∀ s, p (Effect.alertCall s) = false)
    (env : Env) (opts : Options) (m : String) :
    (processErrorMessage env opts m).any p = false := by
  unfold processErrorMessage
  cases opts.handleErrorMessage <;> dsimp only <;>
    repeat' first
      | split
      | simp [h1, h2, h3]

/-- A predicate false on validation effects finds no hit in
`processValidationErrors`. -/
theorem processValidationErrors_any_false (p : Effect → Bool)
    (h1 : ∀ v, p (Effect.validationErrorsDispatch v) = false)
    (h2 : ∀ v, p (Effect.validationHookCall v) = false)
    (env : Env) (opts : Options) (fields : JVal) :
    (processValidationErrors env opts fields).any p = false := by
  unfold processValidationErrors
  cases opts.handleValidationErrors <;> dsimp only <;>
    repeat' first
      | split
      | simp [h1, h2]

/-- A predicate false on flash effects finds no hit in
`processFlashMessages`. -/
theorem processFlashMessages_any_false (p : Effect → Bool)
    (h1 : ∀ v, p (Effect.flashDispatch v) = false)
    (h2 : ∀ v, p (Effect.flashHookCall v) = false)
    (env : Env) (opts : Options) (m : JVal) :
    (processFlashMessages env opts m).any p = false := by
  unfold processFlashMessages
  cases opts.handleFlashMessages <;> dsimp only <;>
    repeat' first
      | split
      | simp [h1, h2]

/-- A predicate false on redirect effects finds no hit in
`processRedirect`. -/
theorem processRedirect_any_false (p : Effect → Bool)
    (h1 : p Effect.popstateListenerAdd = false)
    (h2 : ∀ u, p (Effect.navigate u) = false)
    (env : Env) (opts : Options) (url : String) :
    (processRedirect env opts url).any p = false := by
  unfold processRedirect
  cases opts.handleRedirectResponse <;> dsimp only <;>
    repeat' first
      | split
      | simp [h1, h2]

/-- C3: the claim says every handler name other than `[namespace::]on<Name>`
is rejected at construction. The code's regex `/^(?:\w+\:{2})?on*\/` accepts
the handler name `oops` (any name starting with `o` matches, `n*` matching
zero characters), so `checkRequest` succeeds on it even though `oops` does
not have the `[namespace::]on<Name>` shape required by the claim and by the
code's own error message. -/
theorem checkRequest_accepts_non_on_handler :
    checkRequest ElementArg.undefined (some "oops") = Except.ok () ∧
    specHandlerFormat "oops" = false ∧
    handlerMatch "o" = true := by
  exact ⟨rfl, rfl, rfl⟩

/-- C5: the claim says a non-JSON success body is rendered as exactly one
partial targeting a default target. The code resolves the bare response
text and `processUpdate` then applies `Object.entries` to the string, so
the text `hi` is split into one partial per character, keyed by character
index — two partials, not one. -/
theorem nonJson_success_body_split_per_character :
    classifyFetch (FetchResult.ok ⟨200, false, none, some "hi"⟩) =
      TransportOutcome.fulfilled (AjaxResponse.text "hi") ∧
    responsePartials (AjaxResponse.text "hi") =
      [("0", JVal.str "h"), ("1", JVal.str "i")] ∧
    (responsePartials (AjaxResponse.text "hi")).length ≠ 1 := by
  refine ⟨rfl, rfl, ?_⟩
  decide

/-- C6 counterexample: the claim says that with `options.files` disabled
the POST body is built as encoded key/value pairs, not multipart. The
source's `get data` always constructs a `FormData` body, so with `files`
disabled the body is still multipart. -/
theorem body_multipart_even_without_files :
    filesGetter c6opts = false ∧ isMultipart (requestData c6opts) = true := by
  exact ⟨rfl, rfl⟩

/-- C6 as amended: the POST body is always built from `options.data` as
multipart `FormData`, independently of the `files` option. -/
theorem body_always_formdata (opts : Options) :
    isMultipart (requestData opts) = true ∧
    requestData { opts with files := true } =
      requestData { opts with files := false } := by
  exact ⟨rfl, rfl⟩

/-- C10: constructing with a `targetElement` that is defined but not an
`Element` instance — in particular `null` — throws the construction error
synchronously: no hook fires, no network call is made, the DOM is
untouched. Only the value `undefined` skips the element check: with an
undefined element the constructor proceeds to the handler check. -/
theorem null_element_is_construction_error (env : Env) (san : String → String)
    (handler : Option String) (opts : Options) (fetch : FetchResult)
    (dom : Dom) (elem : ElementArg) (h1 : elem ≠ ElementArg.undefined)
    (h2 : instanceOfElement elem = false) :
    runRequest env san elem handler opts fetch dom =
      ⟨some "The element provided must be an Element instance", [], dom⟩ ∧
    checkRequest ElementArg.undefined none =
      Except.error "The AJAX handler name is not specified." := by
  refine ⟨?_, rfl⟩
  unfold runRequest checkRequest
  rw [if_pos ⟨h1, h2⟩]

/-- Witness for C10 at `targetElement = null`. -/
theorem null_element_is_construction_error_witness :
    runRequest ⟨"http://page/", true, true, true, true, true, true, 0,
        PromiseOutcome.fulfilled true, true, true, false⟩ id ElementArg.null
        (some "onTest") {} (FetchResult.ok ⟨200, true, some [], some ""⟩) [] =
      ⟨some "The element provided must be an Element instance", [], []⟩ ∧
    checkRequest ElementArg.undefined none =
      Except.error "The AJAX handler name is not specified." :=
  null_element_is_construction_error
    ⟨"http://page/", true, true, true, true, true, true, 0,
      PromiseOutcome.fulfilled true, true, true, false⟩ id (some "onTest") {}
    (FetchResult.ok ⟨200, true, some [], some ""⟩) [] ElementArg.null
    (by decide) rfl

/-- C8: a response key beginning with the eight-character side-channel
marker `X_WINTER` never becomes a partial: it is excluded from the
extracted partial set, and adding or removing such a field leaves the
partial set (and hence the DOM update) unchanged. -/
theorem marker_keys_never_rendered (r : AjaxResponse) (k : String) (v : JVal)
    (h : strTake k 8 = "X_WINTER") (fields : List (String × JVal)) :
    ((k, v) ∉ responsePartials r) ∧
    responsePartials (AjaxResponse.obj ((k, v) :: fields)) =
      responsePartials (AjaxResponse.obj fields) := by
  constructor
  · intro hmem
    unfold responsePartials at hmem
    have hp := List.of_mem_filter hmem
    simp only [decide_eq_true_eq] at hp
    exact hp h
  · unfold responsePartials entriesOf
    simp [h]

/-- Witness for C8 at the key `X_WINTER_FOO`. -/
theorem marker_keys_never_rendered_witness :
    (("X_WINTER_FOO", JVal.str "x") ∉
      responsePartials (AjaxResponse.obj [("X_WINTER_FOO", JVal.str "x")])) ∧
    responsePartials (AjaxResponse.obj
        [("X_WINTER_FOO", JVal.str "x"), ("p", JVal.str "c")]) =
      responsePartials (AjaxResponse.obj [("p", JVal.str "c")]) :=
  marker_keys_never_rendered (AjaxResponse.obj [("X_WINTER_FOO", JVal.str "x")])
    "X_WINTER_FOO" (JVal.str "x") (by decide) [("p", JVal.str "c")]

/-- C9: when the update option is a supplied mapping (so selector
resolution happens at all), a partial whose resolved selector matches
zero DOM elements is a silent no-op — the DOM is unchanged for that
partial and no effect is produced — and it never prevents the update
promise from resolving: a response carrying only that partial still
yields a resolved `processUpdate`. -/
theorem zero_match_selector_is_noop (san : String → String) (opts : Options)
    (dom : Dom) (p : String) (v : JVal) (u : List (String × String))
    (hu : opts.update = some u)
    (hm : dom.filter
        (fun e => elementMatches e (resolveSelector u p).1) = [])
    (r : AjaxResponse) (hr : responsePartials r = [(p, v)]) (env : Env)
    (hbu : opts.beforeUpdate = none)
    (hhook : env.ajaxBeforeUpdateFulfilled = true) :
    updateStep san u dom (p, v) = (dom, []) ∧
    processUpdate env san opts r dom =
      (UpdateStatus.resolved, dom, [Effect.hookBeforeUpdateCall]) := by
  have hstep : updateStep san u dom (p, v) = (dom, []) := by
    unfold updateStep
    dsimp only
    rw [hm]
    simp
  refine ⟨hstep, ?_⟩
  unfold processUpdate
  rw [hbu]
  dsimp only
  rw [hr, hu]
  simp [hhook, doUpdate, doUpdateGo, hstep]

/-- Witness for C9: a single partial against an empty DOM. -/
theorem zero_match_selector_is_noop_witness :
    updateStep id [] [] ("p", JVal.str "c") = ([], []) ∧
    processUpdate ⟨"http://page/", true, true, true, true, true, true, 0,
        PromiseOutcome.fulfilled true, true, true, false⟩ id
        { update := some [] }
        (AjaxResponse.obj [("p", JVal.str "c")]) [] =
      (UpdateStatus.resolved, [], [Effect.hookBeforeUpdateCall]) :=
  zero_match_selector_is_noop id { update := some [] } [] "p" (JVal.str "c")
    [] rfl rfl (AjaxResponse.obj [("p", JVal.str "c")]) (by decide) _ rfl rfl

/-- A predicate false on validation and error-message effects finds no
hit in `processError`. -/
theorem processError_any_false (p : Effect → Bool)
    (h1 : ∀ v, p (Effect.validationErrorsDispatch v) = false)
    (h2 : ∀ v, p (Effect.validationHookCall v) = false)
    (h3 : ∀ s, p (Effect.errorMessageDispatch s) = false)
    (h4 : ∀ s, p (Effect.errorMessageHookCall s) = false)
    (h5 : ∀ s, p (Effect.alertCall s) = false)
    (env : Env) (opts : Options) (e : ErrorArg) :
    (processError env opts e).any p = false := by
  cases e with
  | err er => exact processErrorMessage_any_false p h3 h4 h5 env opts er.message
  | resp r =>
      unfold processError
      rw [List.any_append]
      have a1 := processValidationErrors_any_false p h1 h2 env opts
      have a2 := processErrorMessage_any_false p h3 h4 h5 env opts
      split_ifs <;> simp [a1, a2]

/-- A predicate false on flash, asset and redirect effects finds no hit
in `processResponse`. -/
theorem processResponse_any_false (p : Effect → Bool)
    (hf1 : ∀ v, p (Effect.flashDispatch v) = false)
    (hf2 : ∀ v, p (Effect.flashHookCall v) = false)
    (ha : ∀ v, p (Effect.assetsDispatch v) = false)
    (hp : p Effect.popstateListenerAdd = false)
    (hn : ∀ u, p (Effect.navigate u) = false)
    (env : Env) (opts : Options) (r : AjaxResponse) :
    (processResponse env opts r).any p = false := by
  unfold processResponse
  rcases htg : redirectTarget r opts with _ | u <;> dsimp only
  · rw [List.any_append]
    have a1 := processFlashMessages_any_false p hf1 hf2 env opts
    split_ifs <;> simp [a1, ha]
  · exact processRedirect_any_false p hp hn env opts u

/-- A predicate false on the before-update hook call and on DOM writes
finds no hit in the effects of `processUpdate`. -/
theorem processUpdate_any_false (p : Effect → Bool)
    (hh : p Effect.hookBeforeUpdateCall = false)
    (hdom : ∀ s m c, p (Effect.domWrite s m c) = false)
    (env : Env) (san : String → String) (opts : Options) (r : AjaxResponse)
    (dom : Dom) : ((processUpdate env san opts r dom).2.2).any p = false := by
  unfold processUpdate
  dsimp only
  split
  · simp
  · split
    · simp
    · split
      · rcases hu : opts.update with _ | u
        · simp [doUpdate, hu, hh]
        · simp [doUpdate, hu, hh, doUpdateGo_any_false p hdom]
      · simp [hh]

/-- The effects of the network phase never include a confirmation
primitive: `doAjax`, the update phase and the dispatch phase never call
the browser `confirm()` or the `ajaxConfirmMessage` hook. -/
theorem networkAndAfter_confirm_free (env : Env) (san : String → String)
    (opts : Options) (fetch : FetchResult) (dom : Dom) :
    ((networkAndAfter env san opts fetch dom).2).any
      isConfirmPrimitiveEffect = false := by
  have herr := processError_any_false isConfirmPrimitiveEffect
    (fun _ => rfl) (fun _ => rfl) (fun _ => rfl) (fun _ => rfl) (fun _ => rfl)
    env opts
  have hresp := processResponse_any_false isConfirmPrimitiveEffect
    (fun _ => rfl) (fun _ => rfl) (fun _ => rfl) rfl (fun _ => rfl) env opts
  have hupd := processUpdate_any_false isConfirmPrimitiveEffect rfl
    (fun _ _ _ => rfl) env san opts
  unfold networkAndAfter
  dsimp only
  rcases hcf : classifyFetch fetch with r | e <;> dsimp only
  · rcases hpu : processUpdate env san opts r dom with ⟨st, dom2, fx⟩
    have hfx : fx.any isConfirmPrimitiveEffect = false := by
      have := hupd r dom
      rw [hpu] at this
      exact this
    cases st <;> dsimp only
    · unfold dispatchPhase
      split_ifs <;> simp [hfx, herr, hresp, isConfirmPrimitiveEffect]
    · simp [hfx, isConfirmPrimitiveEffect]
  · simp [herr, isConfirmPrimitiveEffect]

/-- The effect trace of the network phase always begins with the network
call itself. -/
theorem networkAndAfter_effects_head (env : Env) (san : String → String)
    (opts : Options) (fetch : FetchResult) (dom : Dom) :
    ∃ rest, (networkAndAfter env san opts fetch dom).2 =
      Effect.networkCall (urlGetter env opts) (requestData opts) :: rest := by
  unfold networkAndAfter
  dsimp only
  rcases classifyFetch fetch with r | e <;> dsimp only
  · rcases processUpdate env san opts r dom with ⟨st, dom2, fx⟩
    cases st <;> exact ⟨_, rfl⟩
  · exact ⟨_, rfl⟩

/-- The handler name `onTest` passes `checkRequest` with an undefined
element. -/
theorem checkRequest_onTest :
    checkRequest ElementArg.undefined (some "onTest") = Except.ok () := rfl

/-- C2: when the success payload or the options carry a redirect target,
the success dispatch processes the redirect exclusively — no flash or
asset effect occurs — and navigation happens exactly once to that target,
unless the per-request `handleRedirectResponse` callback returns literal
`false` or the `ajaxRedirect` hook returns `false`, in which case no
navigation occurs at all. -/
theorem redirect_dispatch_exclusive (env : Env) (opts : Options)
    (r : AjaxResponse) (u : String) (h : redirectTarget r opts = some u) :
    (processResponse env opts r).any isFlashEffect = false ∧
    (processResponse env opts r).any isAssetEffect = false ∧
    navTargets (processResponse env opts r) =
      (if redirectVetoed env opts u then [] else [u]) := by
  have hpr : processResponse env opts r = processRedirect env opts u := by
    unfold processResponse
    rw [h]
  rw [hpr]
  refine ⟨processRedirect_any_false _ rfl (fun _ => rfl) env opts u,
          processRedirect_any_false _ rfl (fun _ => rfl) env opts u, ?_⟩
  unfold processRedirect redirectVetoed
  rcases hcb : opts.handleRedirectResponse with _ | f <;> dsimp only
  · by_cases hr : env.ajaxRedirect = false <;> simp [hr, navTargets]
  · by_cases hf : f u = JVal.bool false
    · simp [hf, navTargets]
    · by_cases hr : env.ajaxRedirect = false <;> simp [hf, hr, navTargets]

/-- Witness for C2: a payload carrying `X_WINTER_REDIRECT` with no veto
navigates exactly once. -/
theorem redirect_dispatch_exclusive_witness :
    (processResponse envW {}
        (AjaxResponse.obj [("X_WINTER_REDIRECT", JVal.str "/done")])).any
      isFlashEffect = false ∧
    (processResponse envW {}
        (AjaxResponse.obj [("X_WINTER_REDIRECT", JVal.str "/done")])).any
      isAssetEffect = false ∧
    navTargets (processResponse envW {}
        (AjaxResponse.obj [("X_WINTER_REDIRECT", JVal.str "/done")])) =
      ["/done"] :=
  redirect_dispatch_exclusive envW {}
    (AjaxResponse.obj [("X_WINTER_REDIRECT", JVal.str "/done")]) "/done"
    (by decide)

/-- C4: a literal `false` from the per-request `beforeUpdate` callback
rejects the update promise before any DOM mutation — `doUpdate` is never
reached, the DOM is returned unchanged — and because the constructor
attaches no rejection handler to `processUpdate`, the dispatch phase
(neither `processResponse` nor `processError`) never runs: the request's
trace ends at the network call. -/
theorem beforeUpdate_false_blocks_update_and_dispatch (env : Env)
    (san : String → String) (opts : Options) (dom : Dom) (r : AjaxResponse)
    (f : AjaxResponse → JVal) (fetch : FetchResult)
    (hf : opts.beforeUpdate = some f) (hveto : f r = JVal.bool false)
    (hfetch : classifyFetch fetch = TransportOutcome.fulfilled r)
    (hsetup : env.ajaxSetup = true)
    (hval : (doClientValidation env opts ElementArg.undefined).1 = true)
    (hconf : confirmGetter opts = none) :
    processUpdate env san opts r dom = (UpdateStatus.rejected, dom, []) ∧
    runRequest env san ElementArg.undefined (some "onTest") opts fetch dom =
      ⟨none, [Effect.setupHookCall,
              Effect.networkCall (urlGetter env opts) (requestData opts)],
       dom⟩ := by
  have hpu : processUpdate env san opts r dom = (UpdateStatus.rejected, dom, []) := by
    unfold processUpdate
    rw [hf]
    simp [hveto]
  refine ⟨hpu, ?_⟩
  unfold runRequest networkAndAfter
  rw [checkRequest_onTest]
  simp [hsetup, hval, hconf, hfetch, hpu]

/-- Witness for C4: a concrete request whose `beforeUpdate` returns
literal `false`. -/
theorem beforeUpdate_false_blocks_update_and_dispatch_witness :
    processUpdate envW id { beforeUpdate := some (fun _ => JVal.bool false) }
        (AjaxResponse.obj [("p", JVal.str "c"),
          ("X_WINTER_SUCCESS", JVal.bool true),
          ("X_WINTER_RESPONSE_CODE", JVal.num 200)]) [] =
      (UpdateStatus.rejected, [], []) ∧
    runRequest envW id ElementArg.undefined (some "onTest")
        { beforeUpdate := some (fun _ => JVal.bool false) }
        (FetchResult.ok ⟨200, true, some [("p", JVal.str "c")], some ""⟩) [] =
      ⟨none, [Effect.setupHookCall,
              Effect.networkCall "http://page/" (RequestBody.formData [])],
       []⟩ :=
  beforeUpdate_false_blocks_update_and_dispatch envW id
    { beforeUpdate := some (fun _ => JVal.bool false) } []
    (AjaxResponse.obj [("p", JVal.str "c"),
      ("X_WINTER_SUCCESS", JVal.bool true),
      ("X_WINTER_RESPONSE_CODE", JVal.num 200)])
    (fun _ => JVal.bool false)
    (FetchResult.ok ⟨200, true, some [("p", JVal.str "c")], some ""⟩)
    rfl rfl rfl rfl rfl rfl

/-- C7: with a `confirm` option and a per-request `handleConfirmMessage`
callback, the callback fully owns the decision: the browser `confirm()`
and the `ajaxConfirmMessage` hook never run anywhere in the trace; a
literal `false` return silently terminates the request — the whole trace
is the setup hook and the callback invocation, no network call — and any
other return lets the request proceed directly to the network call. -/
theorem confirm_callback_owns_decision (env : Env) (san : String → String)
    (opts : Options) (fetch : FetchResult) (dom : Dom) (prompt : String)
    (f : String → JVal)
    (hc : confirmGetter opts = some prompt)
    (hf : opts.handleConfirmMessage = some f)
    (hsetup : env.ajaxSetup = true)
    (hval : (doClientValidation env opts ElementArg.undefined).1 = true) :
    ((runRequest env san ElementArg.undefined (some "onTest") opts fetch
        dom).effects.any isConfirmPrimitiveEffect = false) ∧
    (f prompt = JVal.bool false →
      runRequest env san ElementArg.undefined (some "onTest") opts fetch dom =
        ⟨none, [Effect.setupHookCall, Effect.confirmCallbackCall prompt],
         dom⟩) ∧
    (f prompt ≠ JVal.bool false →
      (runRequest env san ElementArg.undefined (some "onTest") opts fetch
          dom).effects.take 3 =
        [Effect.setupHookCall, Effect.confirmCallbackCall prompt,
         Effect.networkCall (urlGetter env opts) (requestData opts)]) := by
  have hdc : doConfirm env opts prompt =
      (if f prompt = JVal.bool false then false else true,
       [Effect.confirmCallbackCall prompt]) := by
    unfold doConfirm
    rw [hf]
    dsimp only
    split_ifs <;> rfl
  by_cases hfp : f prompt = JVal.bool false
  · have hrun : runRequest env san ElementArg.undefined (some "onTest") opts
        fetch dom =
        ⟨none, [Effect.setupHookCall, Effect.confirmCallbackCall prompt],
         dom⟩ := by
      unfold runRequest
      rw [checkRequest_onTest]
      simp [hsetup, hval, hc, hdc, hfp]
    exact ⟨by rw [hrun]; rfl, fun _ => hrun, fun hne => absurd hfp hne⟩
  · have heff : (runRequest env san ElementArg.undefined (some "onTest") opts
        fetch dom).effects =
        Effect.setupHookCall :: Effect.confirmCallbackCall prompt ::
          (networkAndAfter env san opts fetch dom).2 := by
      unfold runRequest
      rw [checkRequest_onTest]
      simp [hsetup, hval, hc, hdc, hfp]
    obtain ⟨rest, hna⟩ := networkAndAfter_effects_head env san opts fetch dom
    refine ⟨?_, fun h => absurd h hfp, fun _ => ?_⟩
    · rw [heff]
      simp [networkAndAfter_confirm_free, isConfirmPrimitiveEffect]
    · rw [heff, hna]
      rfl

/-- Witness for C7: a callback returning a non-`false` value approves and
the trace reaches the network call without any confirmation primitive. -/
theorem confirm_callback_owns_decision_witness :
    ((runRequest envW id ElementArg.undefined (some "onTest")
        { confirm := some "sure?",
          handleConfirmMessage := some (fun _ => JVal.str "yes") }
        (FetchResult.ok ⟨200, true, some [], some ""⟩) []).effects.any
      isConfirmPrimitiveEffect = false) ∧
    ((fun _ : String => JVal.str "yes") "sure?" = JVal.bool false →
      runRequest envW id ElementArg.undefined (some "onTest")
          { confirm := some "sure?",
            handleConfirmMessage := some (fun _ => JVal.str "yes") }
          (FetchResult.ok ⟨200, true, some [], some ""⟩) [] =
        ⟨none, [Effect.setupHookCall, Effect.confirmCallbackCall "sure?"],
         []⟩) ∧
    ((fun _ : String => JVal.str "yes") "sure?" ≠ JVal.bool false →
      (runRequest envW id ElementArg.undefined (some "onTest")
          { confirm := some "sure?",
            handleConfirmMessage := some (fun _ => JVal.str "yes") }
          (FetchResult.ok ⟨200, true, some [], some ""⟩) []).effects.take 3 =
        [Effect.setupHookCall, Effect.confirmCallbackCall "sure?",
         Effect.networkCall "http://page/" (RequestBody.formData [])]) :=
  confirm_callback_owns_decision envW id
    { confirm := some "sure?",
      handleConfirmMessage := some (fun _ => JVal.str "yes") }
    (FetchResult.ok ⟨200, true, some [], some ""⟩) [] "sure?"
    (fun _ => JVal.str "yes") rfl rfl rfl rfl

/-- C1 counterexample: the claim as frozen fails on the code at an
ordinary request that omits `options.update`. For the spec's own 406
payload (partial `foo`, `X_WINTER_ERROR_FIELDS` with field `name`) and a
DOM containing a `foo` element, `doUpdate`'s unguarded read of
`this.options.update[partial]` throws a TypeError, the update promise
rejects, and the fulfillment-only `.then` of the constructor dispatches
nothing: the partial is never applied (the DOM is unchanged) and
validation-error handling never runs. -/
theorem soft_failure_without_update_option_dispatches_nothing :
    runRequest envW id ElementArg.undefined (some "onTest") {}
        (FetchResult.ok (softFailureRaw "<p>hi</p>" [("name", ["required"])]))
        [⟨["foo"], "old"⟩] =
      ⟨none, [Effect.setupHookCall,
              Effect.networkCall "http://page/" (RequestBody.formData []),
              Effect.hookBeforeUpdateCall],
       [⟨["foo"], "old"⟩]⟩ ∧
    Effect.validationErrorsDispatch (JVal.fieldMap [("name", ["required"])]) ∉
      (runRequest envW id ElementArg.undefined (some "onTest") {}
        (FetchResult.ok (softFailureRaw "<p>hi</p>" [("name", ["required"])]))
        [⟨["foo"], "old"⟩]).effects ∧
    Effect.domWrite "foo" UpdateMode.replace "<p>hi</p>" ∉
      (runRequest envW id ElementArg.undefined (some "onTest") {}
        (FetchResult.ok (softFailureRaw "<p>hi</p>" [("name", ["required"])]))
        [⟨["foo"], "old"⟩]).effects :=
  ⟨rfl, by decide, by decide⟩

/-- C1 as amended: provided `options.update` is a supplied mapping, a 406
response with a JSON body carrying the partial `foo` and a
validation-error field map is classified as a success at transport level,
first runs the update phase on exactly the partial `foo` (the update
engine receives it and its DOM writes precede everything else), then —
because `X_WINTER_SUCCESS` is strictly `false` — dispatches
`processError`, which dispatches validation-error handling with the given
field map; the plain success dispatch (`processResponse`) never runs. -/
theorem soft_failure_updates_then_validation (env : Env)
    (san : String → String) (opts : Options) (content : String)
    (fs : List (String × List String)) (dom : Dom)
    (u : List (String × String)) (hud : opts.update = some u)
    (hsetup : env.ajaxSetup = true)
    (hval : (doClientValidation env opts ElementArg.undefined).1 = true)
    (hconf : confirmGetter opts = none)
    (hbu : opts.beforeUpdate = none)
    (hhook : env.ajaxBeforeUpdateFulfilled = true) :
    runRequest env san ElementArg.undefined (some "onTest") opts
        (FetchResult.ok (softFailureRaw content fs)) dom =
      ⟨none,
       Effect.setupHookCall ::
         Effect.networkCall (urlGetter env opts) (requestData opts) ::
         Effect.hookBeforeUpdateCall ::
         ((doUpdateGo san u [("foo", JVal.str content)] dom).2 ++
          Effect.enterProcessError ::
            processValidationErrors env opts (JVal.fieldMap fs)),
       (doUpdateGo san u [("foo", JVal.str content)] dom).1⟩ ∧
    ((runRequest env san ElementArg.undefined (some "onTest") opts
        (FetchResult.ok (softFailureRaw content fs)) dom).effects).any
      isSuccessDispatchEffect = false := by
  have hcls : classifyFetch (FetchResult.ok (softFailureRaw content fs)) =
      TransportOutcome.fulfilled (softFailureResponse content fs) := rfl
  have hparts : responsePartials (softFailureResponse content fs) =
      [("foo", JVal.str content)] := rfl
  have hpu : processUpdate env san opts (softFailureResponse content fs) dom =
      (UpdateStatus.resolved,
       (doUpdateGo san u [("foo", JVal.str content)] dom).1,
       Effect.hookBeforeUpdateCall ::
         (doUpdateGo san u [("foo", JVal.str content)] dom).2) := by
    unfold processUpdate
    rw [hbu]
    dsimp only
    rw [hparts, hud]
    simp [hhook, doUpdate]
  have hdp : dispatchPhase env opts (softFailureResponse content fs) =
      Effect.enterProcessError ::
        processValidationErrors env opts (JVal.fieldMap fs) := by
    have h1 : getField (softFailureResponse content fs) "X_WINTER_SUCCESS" =
        some (JVal.bool false) := rfl
    have h2 : getField (softFailureResponse content fs) "X_WINTER_ERROR_FIELDS" =
        some (JVal.fieldMap fs) := rfl
    have h3 : getField (softFailureResponse content fs) "X_WINTER_ERROR_MESSAGE" =
        none := rfl
    unfold dispatchPhase
    rw [if_pos h1]
    unfold processError
    dsimp only
    rw [h2, h3]
    simp [jvTruthy]
  have hna : networkAndAfter env san opts
      (FetchResult.ok (softFailureRaw content fs)) dom =
      ((doUpdateGo san u [("foo", JVal.str content)] dom).1,
       Effect.networkCall (urlGetter env opts) (requestData opts) ::
         ((Effect.hookBeforeUpdateCall ::
            (doUpdateGo san u [("foo", JVal.str content)] dom).2) ++
          (Effect.enterProcessError ::
            processValidationErrors env opts (JVal.fieldMap fs)))) := by
    unfold networkAndAfter
    rw [hcls]
    dsimp only
    rw [hpu]
    dsimp only
    rw [hdp]
  have hmain : runRequest env san ElementArg.undefined (some "onTest") opts
      (FetchResult.ok (softFailureRaw content fs)) dom =
      ⟨none,
       Effect.setupHookCall ::
         Effect.networkCall (urlGetter env opts) (requestData opts) ::
         Effect.hookBeforeUpdateCall ::
         ((doUpdateGo san u [("foo", JVal.str content)] dom).2 ++
          Effect.enterProcessError ::
            processValidationErrors env opts (JVal.fieldMap fs)),
       (doUpdateGo san u [("foo", JVal.str content)] dom).1⟩ := by
    unfold runRequest
    rw [checkRequest_onTest]
    dsimp only
    rw [hsetup, hval, hconf]
    dsimp only
    rw [hna]
    simp only [List.cons_append]
    rfl
  refine ⟨hmain, ?_⟩
  rw [hmain]
  have hdu := doUpdateGo_any_false isSuccessDispatchEffect (fun _ _ _ => rfl)
    san u [("foo", JVal.str content)] dom
  have hpv := processValidationErrors_any_false isSuccessDispatchEffect
    (fun _ => rfl) (fun _ => rfl) env opts (JVal.fieldMap fs)
  simp [List.any_append, isSuccessDispatchEffect, hdu, hpv]

/-- Witness for C1 as amended: the spec's concrete 406 payload, an
explicitly supplied (empty) update mapping, and a DOM with a `foo`
element. -/
theorem soft_failure_updates_then_validation_witness :
    runRequest envW id ElementArg.undefined (some "onTest")
        { update := some [] }
        (FetchResult.ok (softFailureRaw "<p>hi</p>" [("name", ["required"])]))
        [⟨["foo"], "old"⟩] =
      ⟨none,
       Effect.setupHookCall ::
         Effect.networkCall (urlGetter envW { update := some [] })
           (requestData { update := some [] }) ::
         Effect.hookBeforeUpdateCall ::
         ((doUpdateGo id []
             [("foo", JVal.str "<p>hi</p>")] [⟨["foo"], "old"⟩]).2 ++
          Effect.enterProcessError ::
            processValidationErrors envW { update := some [] }
              (JVal.fieldMap [("name", ["required"])])),
       (doUpdateGo id []
           [("foo", JVal.str "<p>hi</p>")] [⟨["foo"], "old"⟩]).1⟩ ∧
    ((runRequest envW id ElementArg.undefined (some "onTest")
        { update := some [] }
        (FetchResult.ok (softFailureRaw "<p>hi</p>" [("name", ["required"])]))
        [⟨["foo"], "old"⟩]).effects).any isSuccessDispatchEffect = false :=
  soft_failure_updates_then_validation envW id { update := some [] }
    "<p>hi</p>" [("name", ["required"])] [⟨["foo"], "old"⟩] []
    rfl rfl rfl rfl rfl rfl

end WinterRequest
